import Mathlib

/-!
Shallow embedding of the Simon-style memory game implemented in `src/main.py`.

Modelling conventions:

* The four `Pair` objects built at startup (`yellow_pair`, `blue_pair`,
  `green_pair`, `red_pair`, collected into the list `pairs`) form a fixed pool.
  Each pair owns its own distinct `Button` and `LED` object, so Python object
  identity of a pair (and of its button) is exactly its index in the pool.
  We therefore identify a pair with its pool index `Fin 4`, and the test
  `pair.button is self.pattern.pattern[self.index].button` becomes equality of
  pool indices.
* Wall-clock instants (`time.time()`) and durations are modelled as exact
  rationals `ℚ`; the two `time.time()` reads inside one `cooling()` call are
  modelled as a single instant `now`.  Python float literals `1.00`, `0.10`,
  `0.05`, `0.06` become the exact rationals `1`, `1/10`, `1/20`, `3/50`.
* An LED status is a `Bool`: `true` models `'On'` (GPIO high), `false` models
  `'Off'`.  A button read is a `Bool` `pressed`, the negation of `released()`.
* `random.choice(self.pairs)` draws are inputs: each operation that draws
  receives the drawn pool indices as explicit arguments.
* A Python `IndexError` (the only fallible operation reachable from the game
  loop is the list access `self.pattern.pattern[self.index]`) is modelled by
  returning `none`.
* `Game` holds `pairs` (static), `speed`, `pattern` (a `Pattern` object whose
  mutable state is its list `pattern` and flag `new`) and `index`; the LED
  levels and the buttons' `last_time` stamps live in the hardware/`Button`
  objects.  `GameState` bundles all mutable state of one session.
-/

namespace Simon

/-- GPIO ports of the four LEDs, from the `__main__` block of `src/main.py`
(`LED(18, 'yellow')`, `LED(23, 'blue')`, `LED(19, 'green')`, `LED(20, 'red')`). -/
def ledPorts : Fin 4 → ℕ := ![18, 23, 19, 20]

/-- Colors of the four LEDs, in pool order, from the `__main__` block. -/
def ledColors : Fin 4 → String := !["yellow", "blue", "green", "red"]

/-- GPIO ports of the four buttons (`Button(17)`, `Button(16)`, `Button(13)`,
`Button(12)`), in pool order. -/
def buttonPorts : Fin 4 → ℕ := ![17, 16, 13, 12]

/-- `Button.cooling` (src/main.py lines 68-81).  Input: the button's stored
`last_time` stamp (`none` models Python `None`) and the current wall-clock
instant `now`.  Output: the returned number of seconds and the new stamp.

Python truthiness is modelled faithfully: `if self.last_time:` is false both
for `None` and for the number `0`, and `if not seconds:` is true both for
`None` and for an elapsed time of exactly `0`. -/
def cooling (lastTime : Option ℚ) (now : ℚ) : ℚ × Option ℚ :=
  let seconds : Option ℚ :=
    match lastTime with
    | none => none
    | some t => if t = 0 then none else some (now - t)
  let ret : ℚ :=
    match seconds with
    | none => 10
    | some s => if s = 0 then 10 else s
  (ret, some now)

/-- Three random draws from the pool, as consumed by `Pattern.generate`. -/
abbrev Draw3 := Fin 4 × Fin 4 × Fin 4

/-- The mutable state of one game session: the four LED levels, the four
buttons' `last_time` stamps, and the `Game`/`Pattern` fields `speed`,
`pattern` (list of pool indices), `new`, `index`. -/
structure GameState where
  leds : Fin 4 → Bool
  lastTime : Fin 4 → Option ℚ
  speed : ℚ
  pattern : List (Fin 4)
  patternNew : Bool
  index : ℕ

namespace Pattern

/-- `Pattern.add` (src/main.py lines 188-191): appends one draw to the
pattern list.  The `new` flag is set to `True` by the caller-visible state
update (see `Game.run`). -/
def add (pattern : List (Fin 4)) (draw : Fin 4) : List (Fin 4) :=
  pattern ++ [draw]

/-- `Pattern.generate` (src/main.py lines 193-198): replaces the pattern list
with three fresh draws (`for item in range(0, 3)`). -/
def generate (d : Draw3) : List (Fin 4) :=
  [d.1, d.2.1, d.2.2]

/-- The LED toggle events `(pool index, level)` emitted by `Pattern.cycle_forward`
(src/main.py lines 200-204) on a pool of `n` pairs: `for i in range(1, len(self.pairs))`,
each visited LED toggled `'On'` then `'Off'`. -/
def cycleForwardEvents (n : ℕ) : List (ℕ × Bool) :=
  (List.range' 1 (n - 1)).flatMap fun i => [(i, true), (i, false)]

/-- The LED toggle events emitted by `Pattern.cycle_backward`
(src/main.py lines 206-210): `for i in range(len(self.pairs) - 2, -1, -1)`,
each visited LED toggled `'On'` then `'Off'`. -/
def cycleBackwardEvents (n : ℕ) : List (ℕ × Bool) :=
  (List.range (n - 1)).reverse.flatMap fun i => [(i, true), (i, false)]

/-- The LED toggle events emitted by `Pattern.cycle_lights`
(src/main.py lines 212-217): ten iterations of forward sweep then backward
sweep. -/
def cycleLightsEvents (n : ℕ) : List (ℕ × Bool) :=
  (List.replicate 10 (cycleForwardEvents n ++ cycleBackwardEvents n)).flatten

end Pattern

namespace Game

/-- Net state effect of `Game.reset` (src/main.py lines 172-178): `index := 0`,
`speed := 1.00`, `pattern.generate()` (which also sets the pattern's `new`
flag), then `cycle_lights()` and `show_pattern()`.  The two replay animations
toggle every pool LED on and then off again (`cycle_forward` visits indices
1..3, `cycle_backward` visits 2..0, and `show_pattern` ends each flashed LED
at `'Off'`), so every LED level is `Off` when `reset` returns. -/
def resetState (s : GameState) (d : Draw3) : GameState :=
  { s with
      index := 0
      speed := 1
      pattern := Pattern.generate d
      patternNew := true
      leds := fun _ => false }

/-- `Game.watch_pair` (src/main.py lines 129-151), instrumented with a flag
recording whether the `reset` branch was taken.  `i` is the pool index of the
watched pair, `pressed` the negation of `pair.button.released()`, `now` the
wall-clock instant of the `cooling()` call, `d` the draws consumed by
`Pattern.generate` if `reset` fires.  `none` models the `IndexError` raised by
`self.pattern.pattern[self.index]` when `index` is out of bounds. -/
def watchPairFlag (s : GameState) (i : Fin 4) (pressed : Bool) (now : ℚ)
    (d : Draw3) : Option (GameState × Bool) :=
  if pressed then
    let c := cooling (s.lastTime i) now
    let s1 : GameState := { s with lastTime := Function.update s.lastTime i c.2 }
    if s1.leds i = true then
      some (s1, false)
    else if c.1 > 1 / 20 then
      match s1.pattern[s1.index]? with
      | none => none
      | some expected =>
        if i = expected then
          some ({ s1 with
                    index := s1.index + 1
                    leds := Function.update s1.leds i true }, false)
        else
          let s2 := resetState s1 d
          some ({ s2 with leds := Function.update s2.leds i true }, true)
    else
      some ({ s1 with leds := Function.update s1.leds i true }, false)
  else
    some ({ s with leds := Function.update s.leds i false }, false)

/-- `Game.watch_pair` (src/main.py lines 129-151): the state transition alone. -/
def watchPair (s : GameState) (i : Fin 4) (pressed : Bool) (now : ℚ)
    (d : Draw3) : Option GameState :=
  (watchPairFlag s i pressed now d).map Prod.fst

/-- The inputs consumed by one `Game.run` tick: the pressed level of each
button, the wall-clock instant of each pair's potential `cooling()` call, the
draw consumed by `Pattern.add` on round completion, and the draws consumed by
`Pattern.generate` should the watch of pair `i` fire `reset`. -/
structure TickInput where
  pressed : Fin 4 → Bool
  now : Fin 4 → ℚ
  drawAdd : Fin 4
  drawReset : Fin 4 → Draw3

/-- Round-completion prologue of `Game.run` (src/main.py lines 160-166): when
`index >= len(pattern)` it turns all four LEDs off, decrements `speed` by
`0.10`, appends one draw to the pattern (`add` sets the `new` flag), replays
the pattern (`show_pattern` ends with every flashed LED at `'Off'`), and
resets `index` to `0`; otherwise it changes nothing. -/
def completeRound (s : GameState) (draw : Fin 4) : GameState :=
  if s.pattern.length ≤ s.index then
    { s with
        leds := fun _ => false
        speed := s.speed - 1 / 10
        pattern := Pattern.add s.pattern draw
        patternNew := true
        index := 0 }
  else s

/-- `Game.run` (src/main.py lines 153-170), instrumented with a flag recording
whether any of the four `watch_pair` calls fired `reset`: the round-completion
prologue, then a watch of the four pairs in pool order. -/
def runFlag (s : GameState) (inp : TickInput) : Option (GameState × Bool) :=
  (watchPairFlag (completeRound s inp.drawAdd) 0 (inp.pressed 0) (inp.now 0)
      (inp.drawReset 0)).bind fun p1 =>
    (watchPairFlag p1.1 1 (inp.pressed 1) (inp.now 1) (inp.drawReset 1)).bind
      fun p2 =>
        (watchPairFlag p2.1 2 (inp.pressed 2) (inp.now 2)
            (inp.drawReset 2)).bind fun p3 =>
          (watchPairFlag p3.1 3 (inp.pressed 3) (inp.now 3)
              (inp.drawReset 3)).map fun p4 =>
            (p4.1, p1.2 || p2.2 || p3.2 || p4.2)

/-- `Game.run` (src/main.py lines 153-170): the state transition alone. -/
def run (s : GameState) (inp : TickInput) : Option GameState :=
  (runFlag s inp).map Prod.fst

/-- The session state right after `Game.start` (src/main.py lines 108-117):
`__init__` sets `speed := 1.00` and `index := 0`; `start` then cycles the
lights (leaving every LED at `'Off'`), generates the pattern from draws `d`,
and shows it (again ending with every LED `'Off'`).  No button has been
pressed, so every `last_time` stamp is `None`. -/
def started (d : Draw3) : GameState :=
  { leds := fun _ => false
    lastTime := fun _ => none
    speed := 1
    pattern := Pattern.generate d
    patternNew := true
    index := 0 }

/-- Inputs of one tick in which exactly the pairs listed in `ps` are pressed,
all `cooling()` calls of the tick happen at instant `t`, and every random
draw yields the yellow pair (pool index `0`). -/
def pressOnly (ps : List (Fin 4)) (t : ℚ) : TickInput :=
  { pressed := fun j => decide (j ∈ ps)
    now := fun _ => t
    drawAdd := 0
    drawReset := fun _ => (0, 0, 0) }

/-- Iterated `Game.run` ticks: the main loop `while 1: game.run()` of the
`__main__` block, driven by a list of per-tick inputs. -/
def runTicks (s : GameState) : List TickInput → Option GameState
  | [] => some s
  | inp :: l => (run s inp).bind fun s1 => runTicks s1 l

/-- Iterated `Game.run` ticks, additionally counting how many ticks executed
the round-completion branch (`index >= len(pattern)` at tick entry) and
recording whether any tick fired `reset`. -/
def runStats (s : GameState) : List TickInput → Option (GameState × ℕ × Bool)
  | [] => some (s, 0, false)
  | inp :: l =>
    (runFlag s inp).bind fun p =>
      (runStats p.1 l).map fun q =>
        (q.1, (if s.pattern.length ≤ s.index then q.2.1 + 1 else q.2.1),
          p.2 || q.2.2)

end Game

end Simon

namespace Simon

/-! ### Branch lemmas for `Game.watch_pair` -/

/-- Released branch (src/main.py lines 149-150): the LED is switched off and
nothing else changes. -/
theorem watchPairFlag_released (s : GameState) (i : Fin 4) (now : ℚ) (d : Draw3) :
    Game.watchPairFlag s i false now d =
      some ({ s with leds := Function.update s.leds i false }, false) := rfl

/-- Match branch (src/main.py lines 144-145, 148): pressed, LED off, cooldown
above the threshold, and the watched pair is `pattern[index]`. -/
theorem watchPairFlag_match (s : GameState) (i : Fin 4) (now : ℚ) (d : Draw3)
    (hled : s.leds i = false)
    (hcool : (cooling (s.lastTime i) now).1 > 1 / 20)
    (he : s.pattern[s.index]? = some i) :
    Game.watchPairFlag s i true now d =
      some ({ s with
                lastTime := Function.update s.lastTime i (cooling (s.lastTime i) now).2
                index := s.index + 1
                leds := Function.update s.leds i true }, false) := by
  have hc : (20 : ℚ)⁻¹ < (cooling (s.lastTime i) now).1 := by
    rw [← one_div]; exact hcool
  simp [Game.watchPairFlag, hled, hc, he]

/-- Mismatch branch (src/main.py lines 146-148): pressed, LED off, cooldown
above the threshold, and the watched pair differs from `pattern[index]`:
`reset` fires and then the watched LED is switched on. -/
theorem watchPairFlag_mismatch (s : GameState) (i e : Fin 4) (now : ℚ) (d : Draw3)
    (hled : s.leds i = false)
    (hcool : (cooling (s.lastTime i) now).1 > 1 / 20)
    (he : s.pattern[s.index]? = some e)
    (hne : i ≠ e) :
    Game.watchPairFlag s i true now d =
      some ({ s with
                lastTime := Function.update s.lastTime i (cooling (s.lastTime i) now).2
                index := 0
                speed := 1
                pattern := Pattern.generate d
                patternNew := true
                leds := Function.update (fun _ => false) i true }, true) := by
  have hc : (20 : ℚ)⁻¹ < (cooling (s.lastTime i) now).1 := by
    rw [← one_div]; exact hcool
  simp [Game.watchPairFlag, Game.resetState, hled, hc, he, hne]

end Simon

namespace Simon

/-- One `watch_pair` call either leaves `speed` and the pattern list unchanged
(no reset fired), or fires `reset` and leaves `speed = 1` and a freshly
generated pattern. -/
theorem watchPairFlag_speed_pattern (s : GameState) (i : Fin 4) (p : Bool)
    (now : ℚ) (d : Draw3) (s2 : GameState) (r : Bool)
    (h : Game.watchPairFlag s i p now d = some (s2, r)) :
    (r = false ∧ s2.speed = s.speed ∧ s2.pattern = s.pattern) ∨
      (r = true ∧ s2.speed = 1 ∧ s2.pattern = Pattern.generate d) := by
  cases p with
  | false =>
    rw [watchPairFlag_released] at h
    rw [Option.some_inj] at h
    obtain ⟨hs, hr⟩ := Prod.mk.injEq .. ▸ h
    subst hs
    exact Or.inl ⟨hr.symm, rfl, rfl⟩
  | true =>
    simp only [Game.watchPairFlag, if_true] at h
    split at h
    · rw [Option.some_inj] at h
      obtain ⟨hs, hr⟩ := Prod.mk.injEq .. ▸ h
      subst hs
      exact Or.inl ⟨hr.symm, rfl, rfl⟩
    · split at h
      · split at h
        · exact absurd h (by simp)
        · split at h
          · rw [Option.some_inj] at h
            obtain ⟨hs, hr⟩ := Prod.mk.injEq .. ▸ h
            subst hs
            exact Or.inl ⟨hr.symm, rfl, rfl⟩
          · rw [Option.some_inj] at h
            obtain ⟨hs, hr⟩ := Prod.mk.injEq .. ▸ h
            subst hs
            exact Or.inr ⟨hr.symm, rfl, rfl⟩
      · rw [Option.some_inj] at h
        obtain ⟨hs, hr⟩ := Prod.mk.injEq .. ▸ h
        subst hs
        exact Or.inl ⟨hr.symm, rfl, rfl⟩

/-- C1: in a state where `index` equals the pattern length and all four
buttons read released, one `Game.run` tick resets `index` to `0`, grows the
pattern by exactly one element, and decreases `speed` by exactly `0.10`. -/
theorem c1_round_completion (s : GameState) (inp : Game.TickInput)
    (hidx : s.index = s.pattern.length)
    (hrel : ∀ i, inp.pressed i = false) :
    ∃ s2, Game.run s inp = some s2 ∧ s2.index = 0 ∧
      s2.pattern.length = s.pattern.length + 1 ∧
      s2.speed = s.speed - 1 / 10 := by
  unfold Game.run Game.runFlag Game.completeRound
  rw [hrel 0, hrel 1, hrel 2, hrel 3]
  rw [if_pos (le_of_eq hidx.symm)]
  simp [watchPairFlag_released, Pattern.add]

end Simon

namespace Simon

/-- C2: a guarded press (button pressed, LED off, cooldown above `0.05`) of a
pair that is not `pattern[index]` fires `reset`: afterwards `index = 0`,
`speed = 1.00`, and the pattern has length 3. -/
theorem c2_mismatch_resets (s : GameState) (i e : Fin 4) (now : ℚ) (d : Draw3)
    (hled : s.leds i = false)
    (hcool : (cooling (s.lastTime i) now).1 > 1 / 20)
    (he : s.pattern[s.index]? = some e)
    (hne : i ≠ e) :
    ∃ s2, Game.watchPair s i true now d = some s2 ∧
      s2.index = 0 ∧ s2.speed = 1 ∧ s2.pattern.length = 3 := by
  unfold Game.watchPair
  rw [watchPairFlag_mismatch s i e now d hled hcool he hne]
  exact ⟨_, rfl, rfl, rfl, rfl⟩

/-- Witness for C2 at a concrete state: fresh post-`start` state with pattern
`[yellow, yellow, yellow]`, blue (pool index 1) pressed. -/
theorem c2_mismatch_resets_witness :
    ∃ s2, Game.watchPair (Game.started (0, 0, 0)) 1 true 1 (2, 2, 2) = some s2 ∧
      s2.index = 0 ∧ s2.speed = 1 ∧ s2.pattern.length = 3 :=
  c2_mismatch_resets (Game.started (0, 0, 0)) 1 0 1 (2, 2, 2) rfl
    (by norm_num [cooling, Game.started]) rfl (by decide)

/-- C3: a guarded press (button pressed, LED off, cooldown above `0.05`) of
the pair `pattern[index]` advances `index` by exactly one and leaves every
other `Game` field (`speed`, the pattern list, the pattern's `new` flag)
unchanged.  The watched pair's LED is switched on and its button's
`last_time` stamp advances, but those live in the `LED`/`Button` objects, not
in the `Game` state. -/
theorem c3_match_advances (s : GameState) (i : Fin 4) (now : ℚ) (d : Draw3)
    (hled : s.leds i = false)
    (hcool : (cooling (s.lastTime i) now).1 > 1 / 20)
    (he : s.pattern[s.index]? = some i) :
    ∃ s2, Game.watchPair s i true now d = some s2 ∧
      s2.index = s.index + 1 ∧ s2.speed = s.speed ∧
      s2.pattern = s.pattern ∧ s2.patternNew = s.patternNew := by
  unfold Game.watchPair
  rw [watchPairFlag_match s i now d hled hcool he]
  exact ⟨_, rfl, rfl, rfl, rfl, rfl⟩

/-- Witness for C3 at a concrete state: fresh post-`start` state with pattern
`[yellow, yellow, yellow]`, yellow (pool index 0) pressed. -/
theorem c3_match_advances_witness :
    ∃ s2, Game.watchPair (Game.started (0, 0, 0)) 0 true 1 (2, 2, 2) = some s2 ∧
      s2.index = (Game.started (0, 0, 0)).index + 1 ∧
      s2.speed = (Game.started (0, 0, 0)).speed ∧
      s2.pattern = (Game.started (0, 0, 0)).pattern ∧
      s2.patternNew = (Game.started (0, 0, 0)).patternNew :=
  c3_match_advances (Game.started (0, 0, 0)) 0 1 (2, 2, 2) rfl
    (by norm_num [cooling, Game.started]) rfl

/-- C5: matching is by pair identity (pool index).  Under the guard
(pressed, LED off, cooldown above `0.05`) and with `pattern[index]` defined,
`watch_pair` advances `index` exactly when the watched pair is the very pair
stored at `pattern[index]`, and fires `reset` for every other pair — the
comparison reads nothing but the identity of the pair's button, never its
color or GPIO port (`ledColors`, `ledPorts` and `buttonPorts` do not occur in
the transition). -/
theorem c5_identity_matching (s : GameState) (i e : Fin 4) (now : ℚ) (d : Draw3)
    (hled : s.leds i = false)
    (hcool : (cooling (s.lastTime i) now).1 > 1 / 20)
    (he : s.pattern[s.index]? = some e) :
    (i = e →
      ∃ s2, Game.watchPair s i true now d = some s2 ∧
        s2.index = s.index + 1 ∧ s2.speed = s.speed ∧ s2.pattern = s.pattern) ∧
    (i ≠ e →
      ∃ s2, Game.watchPair s i true now d = some s2 ∧
        s2.index = 0 ∧ s2.speed = 1 ∧ s2.pattern = Pattern.generate d) := by
  constructor
  · intro hie
    subst hie
    unfold Game.watchPair
    rw [watchPairFlag_match s i now d hled hcool he]
    exact ⟨_, rfl, rfl, rfl, rfl⟩
  · intro hne
    unfold Game.watchPair
    rw [watchPairFlag_mismatch s i e now d hled hcool he hne]
    exact ⟨_, rfl, rfl, rfl, rfl⟩

/-- Witness for C5 at a concrete state: fresh post-`start` state with pattern
`[green, green, green]`, green (pool index 2) watched. -/
theorem c5_identity_matching_witness :
    ((2 : Fin 4) = 2 →
      ∃ s2, Game.watchPair (Game.started (2, 2, 2)) 2 true 1 (0, 0, 0) = some s2 ∧
        s2.index = (Game.started (2, 2, 2)).index + 1 ∧
        s2.speed = (Game.started (2, 2, 2)).speed ∧
        s2.pattern = (Game.started (2, 2, 2)).pattern) ∧
    ((2 : Fin 4) ≠ 2 →
      ∃ s2, Game.watchPair (Game.started (2, 2, 2)) 2 true 1 (0, 0, 0) = some s2 ∧
        s2.index = 0 ∧ s2.speed = 1 ∧ s2.pattern = Pattern.generate (0, 0, 0)) :=
  c5_identity_matching (Game.started (2, 2, 2)) 2 2 1 (0, 0, 0) rfl
    (by norm_num [cooling, Game.started]) rfl

end Simon

namespace Simon

/-- Witness for C1: the fresh post-`start` state with `index` set to the
pattern length, one tick with all buttons released. -/
theorem c1_round_completion_witness :
    ∃ s2, Game.run { Game.started (0, 0, 0) with index := 3 }
        (Game.pressOnly [] 1) = some s2 ∧ s2.index = 0 ∧
      s2.pattern.length =
        { Game.started (0, 0, 0) with index := 3 }.pattern.length + 1 ∧
      s2.speed = { Game.started (0, 0, 0) with index := 3 }.speed - 1 / 10 :=
  c1_round_completion { Game.started (0, 0, 0) with index := 3 }
    (Game.pressOnly [] 1) rfl (fun _ => rfl)

/-- C4: the bounds claim fails on a reachable state.  Starting from the
post-`start` state with pattern `[yellow, yellow, yellow]`, the player presses
yellow (with releases in between) until `index = 2`, and in the next tick
holds yellow and blue together: the yellow watch advances `index` to `3`, and
the blue watch in the same `run` tick then evaluates
`self.pattern.pattern[3]` on a 3-element list — an `IndexError`, modelled as
`none`. -/
theorem c4_out_of_bounds_crash :
    Game.runTicks (Game.started (0, 0, 0))
      [Game.pressOnly [0] 1, Game.pressOnly [] 2, Game.pressOnly [0] 3,
       Game.pressOnly [] 4, Game.pressOnly [0, 1] 5] = none := by
  norm_num +decide [Game.runTicks, Game.run, Game.runFlag, Game.completeRound,
    Game.watchPairFlag, Game.started, Game.pressOnly, cooling,
    Pattern.generate, Pattern.add, Game.resetState, Function.update_apply]

/-- C6 counterexample: a `cooling()` call whose stamp equals the current
instant does not return the elapsed wall-clock time `0`; the Python falsy
check `if not seconds:` makes it return the sentinel `10` instead. -/
theorem c6_cooling_counterexample :
    (cooling (some 5) 5).1 = 10 ∧ (5 : ℚ) - 5 = 0 ∧ (10 : ℚ) ≠ 5 - 5 := by
  norm_num [cooling]

/-- C6 (amended): on a fresh button (`last_time = None`) `cooling()` returns
exactly `10`; a subsequent call whose stored stamp `t` is a nonzero instant
returns the elapsed time `now - t` provided that elapsed time is nonzero (an
exactly-zero elapsed reading returns the sentinel `10` instead); whenever the
clock did not go backwards the returned value is nonnegative; and every call,
the first included, re-stamps the reference timestamp to the current
instant. -/
theorem c6_cooling_amended :
    (∀ now : ℚ, cooling none now = (10, some now)) ∧
    (∀ t now : ℚ, t ≠ 0 → now - t ≠ 0 →
      cooling (some t) now = (now - t, some now)) ∧
    (∀ t now : ℚ, t ≠ 0 → t ≤ now → 0 ≤ (cooling (some t) now).1) ∧
    (∀ (lt : Option ℚ) (now : ℚ), (cooling lt now).2 = some now) := by
  refine ⟨fun now => rfl, ?_, ?_, fun lt now => rfl⟩
  · intro t now ht hs
    simp [cooling, ht, hs]
  · intro t now ht hle
    by_cases hs : now - t = 0
    · simp [cooling, ht, hs]
    · simp [cooling, ht, hs]
      linarith

/-- Witness for the amended C6: a fresh call at instant `7`, then calls with
stamp `2` at instant `7`. -/
theorem c6_cooling_amended_witness :
    cooling none 7 = (10, some 7) ∧
    cooling (some 2) 7 = (7 - 2, some 7) ∧
    0 ≤ (cooling (some 2) 7).1 ∧
    (cooling (some 2) 7).2 = some 7 :=
  ⟨c6_cooling_amended.1 7,
   c6_cooling_amended.2.1 2 7 (by norm_num) (by norm_num),
   c6_cooling_amended.2.2.1 2 7 (by norm_num) (by norm_num),
   c6_cooling_amended.2.2.2 (some 2) 7⟩

/-- C8: the pattern produced by `add` keeps the previous pattern as a prefix
(`new_pattern[0:len(old)] == old_pattern`), has exactly one more element, and
that element is the new draw appended at the end. -/
theorem c8_add_appends_one (p : List (Fin 4)) (draw : Fin 4) :
    (Pattern.add p draw).take p.length = p ∧
    (Pattern.add p draw).length = p.length + 1 ∧
    (Pattern.add p draw).drop p.length = [draw] := by
  refine ⟨?_, by simp [Pattern.add], ?_⟩
  · simp [Pattern.add]
  · simp [Pattern.add]

/-- C10: on the fixed 4-pair pool, `cycle_forward` toggles the LEDs of pool
indices `1, 2, 3` (every index except the first) in ascending order, each on
then off once; `cycle_backward` toggles pool indices `2, 1, 0` (every index
except the last) in descending order, each on then off once; and
`cycle_lights` emits exactly ten repetitions of the forward-then-backward
sweep pair. -/
theorem c10_attract_cycle :
    Pattern.cycleForwardEvents 4 =
      [(1, true), (1, false), (2, true), (2, false), (3, true), (3, false)] ∧
    Pattern.cycleBackwardEvents 4 =
      [(2, true), (2, false), (1, true), (1, false), (0, true), (0, false)] ∧
    Pattern.cycleLightsEvents 4 =
      (List.replicate 10
        ([(1, true), (1, false), (2, true), (2, false), (3, true), (3, false)] ++
          [(2, true), (2, false), (1, true), (1, false), (0, true), (0, false)])).flatten := by
  refine ⟨by decide, by decide, by decide⟩

end Simon

namespace Simon

/-- The round-completion prologue never shrinks the pattern below 3 elements. -/
theorem completeRound_length (s : GameState) (draw : Fin 4)
    (h3 : 3 ≤ s.pattern.length) :
    3 ≤ (Game.completeRound s draw).pattern.length := by
  unfold Game.completeRound
  split
  · simpa [Pattern.add] using Nat.le_succ_of_le h3
  · exact h3

/-- Speed effect of the round-completion prologue: minus `0.10` when the
round was complete at tick entry, otherwise unchanged. -/
theorem completeRound_speed (s : GameState) (draw : Fin 4) :
    (Game.completeRound s draw).speed =
      s.speed - (if s.pattern.length ≤ s.index then 1 / 10 else 0) := by
  unfold Game.completeRound
  split
  · rfl
  · simp

/-- A `watch_pair` call that fired no reset preserves `speed` and the pattern
list. -/
theorem watchPairFlag_noReset (s : GameState) (i : Fin 4) (p : Bool) (now : ℚ)
    (d : Draw3) (s2 : GameState)
    (h : Game.watchPairFlag s i p now d = some (s2, false)) :
    s2.speed = s.speed ∧ s2.pattern = s.pattern := by
  rcases watchPairFlag_speed_pattern s i p now d s2 false h with
    ⟨-, h1, h2⟩ | ⟨hc, -, -⟩
  · exact ⟨h1, h2⟩
  · exact absurd hc (by simp)

/-- A `watch_pair` call never shrinks the pattern below 3 elements. -/
theorem watchPairFlag_length (s : GameState) (i : Fin 4) (p : Bool) (now : ℚ)
    (d : Draw3) (s2 : GameState) (r : Bool)
    (h : Game.watchPairFlag s i p now d = some (s2, r))
    (h3 : 3 ≤ s.pattern.length) : 3 ≤ s2.pattern.length := by
  rcases watchPairFlag_speed_pattern s i p now d s2 r h with
    ⟨-, -, h2⟩ | ⟨-, -, h2⟩
  · rw [h2]; exact h3
  · rw [h2]; simp [Pattern.generate]

/-- Destructor for one successful `runFlag` tick: the four successive
`watch_pair` transitions it is built from. -/
theorem runFlag_eq_some (s : GameState) (inp : Game.TickInput)
    (s4 : GameState) (r : Bool) (h : Game.runFlag s inp = some (s4, r)) :
    ∃ (a : GameState) (r1 : Bool) (b : GameState) (r2 : Bool)
      (c : GameState) (r3 : Bool) (r4 : Bool),
      Game.watchPairFlag (Game.completeRound s inp.drawAdd) 0 (inp.pressed 0)
          (inp.now 0) (inp.drawReset 0) = some (a, r1) ∧
      Game.watchPairFlag a 1 (inp.pressed 1) (inp.now 1) (inp.drawReset 1) =
        some (b, r2) ∧
      Game.watchPairFlag b 2 (inp.pressed 2) (inp.now 2) (inp.drawReset 2) =
        some (c, r3) ∧
      Game.watchPairFlag c 3 (inp.pressed 3) (inp.now 3) (inp.drawReset 3) =
        some (s4, r4) ∧
      r = (((r1 || r2) || r3) || r4) := by
  unfold Game.runFlag at h
  rw [Option.bind_eq_some] at h
  obtain ⟨⟨a, r1⟩, h1, h⟩ := h
  rw [Option.bind_eq_some] at h
  obtain ⟨⟨b, r2⟩, h2, h⟩ := h
  rw [Option.bind_eq_some] at h
  obtain ⟨⟨c, r3⟩, h3, h⟩ := h
  rw [Option.map_eq_some'] at h
  obtain ⟨⟨e, r4⟩, h4, h⟩ := h
  have hs : e = s4 := congrArg Prod.fst h
  have hr : r = (((r1 || r2) || r3) || r4) := (congrArg Prod.snd h).symm
  subst hs
  exact ⟨a, r1, b, r2, c, r3, r4, h1, h2, h3, h4, hr⟩

/-- One successful `run` tick never shrinks the pattern below 3 elements. -/
theorem runFlag_length (s : GameState) (inp : Game.TickInput) (s4 : GameState)
    (r : Bool) (h : Game.runFlag s inp = some (s4, r))
    (h3 : 3 ≤ s.pattern.length) : 3 ≤ s4.pattern.length := by
  obtain ⟨a, r1, b, r2, c, r3, r4, h1, h2, h3w, h4, -⟩ :=
    runFlag_eq_some s inp s4 r h
  exact watchPairFlag_length _ _ _ _ _ _ _ h4
    (watchPairFlag_length _ _ _ _ _ _ _ h3w
      (watchPairFlag_length _ _ _ _ _ _ _ h2
        (watchPairFlag_length _ _ _ _ _ _ _ h1
          (completeRound_length s inp.drawAdd h3))))

/-- A `run` tick that fired no reset changes `speed` exactly by the
round-completion decrement. -/
theorem runFlag_noReset_speed (s : GameState) (inp : Game.TickInput)
    (s4 : GameState) (r : Bool) (h : Game.runFlag s inp = some (s4, r))
    (hr0 : r = false) :
    s4.speed = s.speed - (if s.pattern.length ≤ s.index then 1 / 10 else 0) := by
  obtain ⟨a, r1, b, r2, c, r3, r4, h1, h2, h3, h4, hr⟩ :=
    runFlag_eq_some s inp s4 r h
  rw [hr0] at hr
  have hb := hr.symm
  simp only [Bool.or_eq_false_iff] at hb
  obtain ⟨⟨⟨er1, er2⟩, er3⟩, er4⟩ := hb
  subst er1
  subst er2
  subst er3
  subst er4
  have q1 := watchPairFlag_noReset _ _ _ _ _ _ h1
  have q2 := watchPairFlag_noReset _ _ _ _ _ _ h2
  have q3 := watchPairFlag_noReset _ _ _ _ _ _ h3
  have q4 := watchPairFlag_noReset _ _ _ _ _ _ h4
  rw [q4.1, q3.1, q2.1, q1.1, completeRound_speed]

/-- The pattern length stays at least 3 along any successful run of ticks. -/
theorem runTicks_length (l : List Game.TickInput) (s s2 : GameState)
    (h3 : 3 ≤ s.pattern.length) (h : Game.runTicks s l = some s2) :
    3 ≤ s2.pattern.length := by
  induction l generalizing s with
  | nil =>
    simp only [Game.runTicks, Option.some_inj] at h
    exact h ▸ h3
  | cons inp l ih =>
    simp only [Game.runTicks, Option.bind_eq_some] at h
    obtain ⟨s1, hr, hrest⟩ := h
    rw [Game.run, Option.map_eq_some'] at hr
    obtain ⟨⟨a, r⟩, hf, ha⟩ := hr
    have ha2 : a = s1 := ha
    exact ih s1 (ha2 ▸ runFlag_length s inp a r hf h3) hrest

/-- Along a reset-free successful run, `speed` drops by exactly `1/10` per
completed round. -/
theorem runStats_speed (l : List Game.TickInput) (s s2 : GameState) (n : ℕ)
    (h : Game.runStats s l = some (s2, n, false)) :
    s2.speed = s.speed - n * (1 / 10) := by
  induction l generalizing s n with
  | nil =>
    simp only [Game.runStats, Option.some_inj, Prod.mk.injEq] at h
    obtain ⟨h1, h2, -⟩ := h
    rw [← h1, ← h2]
    simp
  | cons inp l ih =>
    simp only [Game.runStats, Option.bind_eq_some, Option.map_eq_some'] at h
    obtain ⟨p, hf, q, hq, heq⟩ := h
    have e1 : q.1 = s2 := congrArg Prod.fst heq
    have e2 : (if s.pattern.length ≤ s.index then q.2.1 + 1 else q.2.1) = n :=
      congrArg (fun x => x.2.1) heq
    have e3 : (p.2 || q.2.2) = false := congrArg (fun x => x.2.2) heq
    rcases Bool.or_eq_false_iff.mp e3 with ⟨er, eb⟩
    have hq2 : Game.runStats p.1 l = some (s2, q.2.1, false) := by
      rw [← e1, ← eb]
      exact hq
    have hstep := runFlag_noReset_speed s inp p.1 p.2 hf er
    have htail := ih p.1 q.2.1 hq2
    rw [htail, hstep, ← e2]
    by_cases hc : s.pattern.length ≤ s.index
    · simp only [if_pos hc]
      push_cast
      ring
    · simp only [if_neg hc]
      ring

end Simon

namespace Simon

/-- C7: `generate` produces a 3-element pattern, `add` grows the pattern by
exactly one element, `reset` returns the pattern to 3 elements, and along any
session (any successful sequence of `run` ticks from the post-`start` state)
the pattern length never drops below 3 — the regenerate inside `reset` is the
only shrinking step and it lands exactly on 3. -/
theorem c7_pattern_length_invariant :
    (∀ d : Draw3, (Pattern.generate d).length = 3) ∧
    (∀ (p : List (Fin 4)) (draw : Fin 4),
      (Pattern.add p draw).length = p.length + 1) ∧
    (∀ (s : GameState) (d : Draw3),
      (Game.resetState s d).pattern.length = 3) ∧
    (∀ (d : Draw3) (l : List Game.TickInput) (s2 : GameState),
      Game.runTicks (Game.started d) l = some s2 → 3 ≤ s2.pattern.length) := by
  refine ⟨fun d => rfl, fun p draw => by simp [Pattern.add], fun s d => rfl, ?_⟩
  intro d l s2 h
  exact runTicks_length l (Game.started d) s2
    (by norm_num [Game.started, Pattern.generate]) h

/-- Witness for C7 at concrete inputs, with the empty session for the
reachability conjunct. -/
theorem c7_pattern_length_invariant_witness :
    (Pattern.generate (0, 1, 2)).length = 3 ∧
    (Pattern.add [0, 1, 2] 3).length = ([0, 1, 2] : List (Fin 4)).length + 1 ∧
    (Game.resetState (Game.started (0, 0, 0)) (1, 1, 1)).pattern.length = 3 ∧
    3 ≤ (Game.started (0, 0, 0)).pattern.length :=
  ⟨c7_pattern_length_invariant.1 (0, 1, 2),
   c7_pattern_length_invariant.2.1 [0, 1, 2] 3,
   c7_pattern_length_invariant.2.2.1 (Game.started (0, 0, 0)) (1, 1, 1),
   c7_pattern_length_invariant.2.2.2 (0, 0, 0) [] (Game.started (0, 0, 0)) rfl⟩

/-- C9: `speed` starts at `1.00`, and along any reset-free session every tick
that completes a round subtracts exactly `0.10` with no floor: after `n`
completed rounds `speed = 1 - n/10`, and as soon as `n` reaches `10` the
speed is `≤ 0`. -/
theorem c9_speed_progression :
    (∀ d : Draw3, (Game.started d).speed = 1) ∧
    (∀ (d : Draw3) (l : List Game.TickInput) (s2 : GameState) (n : ℕ),
      Game.runStats (Game.started d) l = some (s2, n, false) →
        s2.speed = 1 - n * (1 / 10) ∧ (10 ≤ n → s2.speed ≤ 0)) := by
  refine ⟨fun d => rfl, ?_⟩
  intro d l s2 n h
  have hsp := runStats_speed l (Game.started d) s2 n h
  rw [show (Game.started d).speed = 1 from rfl] at hsp
  refine ⟨hsp, fun hn => ?_⟩
  rw [hsp]
  have hcast : (10 : ℚ) ≤ (n : ℚ) := by exact_mod_cast hn
  linarith

/-- Witness for C9: the empty reset-free session, zero completed rounds. -/
theorem c9_speed_progression_witness :
    (Game.started (0, 0, 0)).speed = 1 ∧
    ((Game.started (1, 1, 1)).speed = 1 - (0 : ℕ) * (1 / 10) ∧
      (10 ≤ (0 : ℕ) → (Game.started (1, 1, 1)).speed ≤ 0)) :=
  ⟨c9_speed_progression.1 (0, 0, 0),
   c9_speed_progression.2 (1, 1, 1) [] (Game.started (1, 1, 1)) 0 rfl⟩

end Simon

namespace Simon

/-- Witness for C8 at a concrete two-element pattern. -/
theorem c8_add_appends_one_witness :
    (Pattern.add [0, 1] 2).take ([0, 1] : List (Fin 4)).length = [0, 1] ∧
    (Pattern.add [0, 1] 2).length = ([0, 1] : List (Fin 4)).length + 1 ∧
    (Pattern.add [0, 1] 2).drop ([0, 1] : List (Fin 4)).length = [2] :=
  c8_add_appends_one [0, 1] 2

end Simon
